import Mathlib

/-!
Verification development for the go-bitmex realtime websocket client
(package `realtime` plus the product-code constants of the parent package).

The Go source is shallowly embedded:
* JSON values that have already passed the generic `json.Unmarshal` step are
  modelled by the inductive `Json`; JSON numbers are modelled as `Rat`
  (Go decodes every JSON number appearing in an `interface\x7b\x7d` to a
  `float64`; the program only moves these values around, it never computes
  with them, and every literal appearing in the spec is an exact binary
  float, so `Rat` is a faithful carrier).
* Go strings are modelled as `List Char` (all strings involved are ASCII).
* A Go `nil` slice is distinguished from an empty one by `Option (List _)`,
  mirroring the source's `symbols != nil` test.
* The session control flow of `Connect` is embedded as a function from an
  environment describing the I/O outcomes (dial result, write results, how
  the read loop ended) to the ordered list of teardown-relevant actions and
  the value `Connect` returns; a Go `nil`-pointer dereference is modelled by
  the `panics` outcome.
-/

namespace GoBitmex

/-- JSON values after the generic decode step (numbers as exact rationals,
object fields in textual order; the sources under scrutiny never read a
duplicated key). -/
inductive Json where
  | null
  | bool (b : Bool)
  | num (q : Rat)
  | str (s : List Char)
  | arr (xs : List Json)
  | obj (fields : List (List Char × Json))

/-- Field lookup in a decoded JSON object, i.e. Go's `in[key]` on the
`map[string]interface\x7b\x7d` produced by `json.Unmarshal`. -/
def lookupField : List (List Char × Json) → List Char → Option Json
  | [], _ => none
  | (k, v) :: fs, key => if k = key then some v else lookupField fs key

/-- One orderbook row (`realtime.Book`): price and size, Go `float64`. -/
structure Book where
  price : Rat
  size : Rat
deriving DecidableEq, Repr

/-- The decoded `realtime.OrderBook`. The `Symbol`/`Timestamp` fields are
derived by `fmt.Sprintf` and `time.Parse` from sibling keys and are not
touched by any claim, so they are not modelled. -/
structure OrderBook where
  asks : List Book
  bids : List Book
deriving DecidableEq, Repr

/-- Go's `book[0].(float64)` with the failure bool discarded: a non-number
yields the zero value `0`. -/
def numOr0 : Json → Rat
  | .num q => q
  | _ => 0

/-- Decoding of one raw row, mirroring the loop body of
`OrderBook.UnmarshalJSON` lines 41-52: a non-array row or a row whose
arity is not 2 is `continue`d over, which leaves the pre-allocated zero
`Book` at its index; a 2-element row has each element type-asserted to
`float64` with failures coerced to `0`. -/
def decodeRow : Json → Book
  | .arr [a, b] => { price := numOr0 a, size := numOr0 b }
  | _ => { price := 0, size := 0 }

/-- The row loop over `books := make([]Book, len(body))`: every input
element contributes exactly one output slot. -/
def decodeRows (body : List Json) : List Book :=
  body.map decodeRow

def asksKey : List Char := ("asks").toList
def bidsKey : List Char := ("bids").toList

/-- The literal compared against in `if bookname[i] == "ask"`. -/
def askLit : List Char := ("ask").toList

/-- `var bookname = []string\x7b"asks", "bids"\x7d`. -/
def bookname : List (List Char) := [asksKey, bidsKey]

def dataHasNotType : List Char := ("data has not type").toList

/-- The `for i := range bookname` loop of `OrderBook.UnmarshalJSON`:
each named key must be present and an array, its rows are decoded, and the
result is stored in `Asks` only when the key equals the literal `"ask"`,
otherwise in `Bids`. -/
def obLoop : List (List Char) → List (List Char × Json) → OrderBook →
    Except (List Char) OrderBook
  | [], _, acc => .ok acc
  | k :: ks, fields, acc =>
    match lookupField fields k with
    | some (.arr body) =>
      obLoop ks fields
        (if k = askLit then { acc with asks := decodeRows body }
         else { acc with bids := decodeRows body })
    | _ => .error dataHasNotType

/-- `OrderBook.UnmarshalJSON` after the generic decode into a string map;
a non-object input already fails the generic decode. -/
def unmarshalOrderBook : Json → Except (List Char) OrderBook
  | .obj fields => obLoop bookname fields { asks := [], bids := [] }
  | _ => .error ("json: cannot unmarshal into map").toList

/-- Result of Go's `v, ok := in[k].([]interface\x7b\x7d)` test: is the field
present and a JSON array? -/
def isArrAt (fields : List (List Char × Json)) (k : List Char) : Bool :=
  match lookupField fields k with
  | some (.arr _) => true
  | _ => false

/-- Success test on the embedded decoder results. -/
def exceptOk {ε α : Type} : Except ε α → Bool
  | .ok _ => true
  | .error _ => false

/-! ## Outbound requests (`Request`, `subscribe`, `unsubscribe`) -/

/-- One element of the Go `[]interface\x7b\x7d` argument list: the program
only ever appends strings and one integer expiry. -/
inductive Arg where
  | str (s : List Char)
  | num (n : Nat)
deriving DecidableEq, Repr

/-- The outbound control message `realtime.Request`; `id = 0` stands for
Go's zero value elided by `omitempty`. -/
structure Request where
  op : List Char
  args : List Arg
  id : Nat
deriving DecidableEq, Repr

/-- `fmt.Sprintf("%s:%s", channel, symbol)`. -/
def colonJoin (c s : List Char) : List Char := c ++ ':' :: s

/-- The request list built by `Client.subscribe`. The Go parameter
`symbols []string` distinguishes a `nil` slice (`none`) from a non-`nil`
one (`some`), exactly as the source's `if symbols != nil` does; in both
branches exactly one request is appended. -/
def subscribeRequests (channels : List (List Char))
    (symbols : Option (List (List Char))) : List Request :=
  match symbols with
  | some syms =>
    [{ op := ("subscribe").toList,
       args := channels.flatMap (fun c => syms.map (fun s => Arg.str (colonJoin c s))),
       id := 0 }]
  | none =>
    [{ op := ("subscribe").toList, args := channels.map Arg.str, id := 0 }]

/-- `Client.unsubscribe`: each prior subscribe request is re-sent with the
operation flipped, its argument list untouched. -/
def unsubRequests (rs : List Request) : List Request :=
  rs.map (fun r => { r with op := ("unsubscribe").toList })

/-! ## Topic classification and product-code derivation -/

/-- `strings.HasPrefix p l`: does `l` start with the pattern given first? -/
def leadMatch : List Char → List Char → Bool
  | [], _ => true
  | _ :: _, [] => false
  | a :: as, b :: bs => if a = b then leadMatch as bs else false

/-- `strings.HasSuffix`: does the second list end with the first? -/
def tailMatch (p l : List Char) : Bool := leadMatch p.reverse l.reverse

/-- `strings.Contains`: does the second list contain the first as a
contiguous run? -/
def seqIn (p : List Char) : List Char → Bool
  | [] => leadMatch p []
  | c :: tl => leadMatch p (c :: tl) || seqIn p tl

/-- Everything after the first occurrence of `c`, i.e. Go's
`name[strings.Index(name, c)+1:]` guarded by `strings.Contains`. -/
def afterFirst (c : Char) : List Char → Option (List Char)
  | [] => none
  | x :: xs => if x = c then some xs else afterFirst c xs

/-- The event kinds of `realtime.Types` reachable from a classified frame. -/
inductive Types where
  | Quote
  | OrderbookL
  | Orderbook
  | TradeBin
  | Trade
  | Announcement
  | Chat
  | Connected
  | Funding
  | Instrument
  | Insurance
  | Settlement
  | Notifications
  | Execution
  | Order
  | Margin
  | Position
  | Transact
  | Wallet
  | NotificationsForPrivate
  | Affiliate
  | Undefined
deriving DecidableEq, Repr

/-- The ordered case list of the `switch` over `strings.HasPrefix(name, _)`
in `Connect` (source order, lines 256-375). -/
def knownTable : List (List Char × Types) :=
  [(("quote").toList, .Quote),
   (("orderBookL").toList, .OrderbookL),
   (("orderBook").toList, .Orderbook),
   (("tradeBin").toList, .TradeBin),
   (("trade").toList, .Trade),
   (("announcement").toList, .Announcement),
   (("chat").toList, .Chat),
   (("connected").toList, .Connected),
   (("funding").toList, .Funding),
   (("instrument").toList, .Instrument),
   (("insurance").toList, .Insurance),
   (("settlement").toList, .Settlement),
   (("publicNotifications").toList, .Notifications),
   (("execution").toList, .Execution),
   (("order").toList, .Order),
   (("margin").toList, .Margin),
   (("position").toList, .Position),
   (("transact").toList, .Transact),
   (("wallet").toList, .Wallet),
   (("privateNotifications").toList, .NotificationsForPrivate),
   (("affiliate").toList, .Affiliate)]

/-- First-match evaluation of the ordered `switch`; `none` is the `default`
branch. -/
def classify : List (List Char × Types) → List Char → Option Types
  | [], _ => none
  | (p, t) :: rest, name => if leadMatch p name then some t else classify rest name

def classifyName (name : List Char) : Option Types := classify knownTable name

/-- Modelled from the spec: the product-code constants `bitmex.XBTUSD` and
`bitmex.ETHUSD` are declared in a file of the parent package that is not
under `src/`; the spec and the package's own test fix their values as the
literal symbol strings. -/
def xbtusdLit : List Char := ("XBTUSD").toList

/-- Modelled from the spec: see `xbtusdLit`. -/
def ethusdLit : List Char := ("ETHUSD").toList

def xrpusdLit : List Char := ("XRPUSD").toList

def undefinedLit : List Char := ("undefined").toList

/-- The `switch with ProductCode` of `Connect` (lines 383-399): three
hardcoded suffix matches first, then the substring after the first colon,
else `"undefined"`. -/
def productCode (name : List Char) : List Char :=
  if tailMatch xbtusdLit name then xbtusdLit
  else if tailMatch ethusdLit name then ethusdLit
  else if tailMatch xrpusdLit name then xrpusdLit
  else
    match afterFirst ':' name with
    | some rest => rest
    | none => undefinedLit

/-! ## Per-frame processing of the read loop -/

/-- One inbound frame as seen after the `jsonparser` field extractions:
`table`/`action` are `some` exactly when `jsonparser.GetString` succeeds,
`data` is `some` exactly when `jsonparser.Get(msg, "data")` succeeds, and
`raw` is the full frame text. -/
structure Frame where
  table : Option (List Char)
  action : Option (List Char)
  data : Option Json
  raw : List Char

/-- The caller-visible part of `realtime.Response` that the dispatch code
assigns: the discriminant, the derived product code, the action tag
(Go zero value `""` when absent) and the `Results` error text. The ~20
typed payload slices are carriers the claims never inspect and are not
modelled. -/
structure Response where
  types : Types
  productCode : List Char
  action : List Char
  results : Option (List Char)
deriving DecidableEq, Repr

/-- Success of `json.Unmarshal(data, &r.<slice field>)` for the classified
kind: the payload target is always a slice, so a JSON `null` or an array is
required. For the `orderBook` kind each element runs the
`OrderBook.UnmarshalJSON` embedded above; element-level decoding into the
other (plain struct) payload kinds has no failure mode any claim depends
on and is modelled as success. -/
def decodeOk (t : Types) (d : Json) : Bool :=
  match d with
  | .null => true
  | .arr xs =>
    match t with
    | .Orderbook => xs.all (fun x => exceptOk (unmarshalOrderBook x))
    | _ => true
  | _ => false

/-- One iteration body of the read loop of `Connect` (lines 244-408) on a
successfully read frame: `none` means the frame is dropped (`continue`),
`some r` means `r` is pushed to the output channel (when the caller's
context is not yet cancelled). -/
def processFrame (f : Frame) : Option Response :=
  match f.table with
  | none => none
  | some name =>
    match f.data with
    | none => none
    | some d =>
      match classifyName name with
      | some t =>
        if decodeOk t d then
          some { types := t, productCode := productCode name,
                 action := f.action.getD [], results := none }
        else none
      | none =>
        some { types := .Undefined, productCode := productCode name,
               action := f.action.getD [], results := some f.raw }

/-! ## SHA-256, HMAC and the authentication request (`signture`)

Bytes are naturals below 256, 32-bit words are naturals reduced modulo
`2 ^ 32`; the implementation follows FIPS 180-4 as used by Go's
`crypto/sha256` / `crypto/hmac`, and is checked below against the standard
`"abc"` digest and an RFC 4231 HMAC test vector. -/

def w32 (n : Nat) : Nat := n % 4294967296

def w8 (n : Nat) : Nat := n % 256

def rotr32 (n x : Nat) : Nat := w32 ((x >>> n) ||| (x <<< (32 - n)))

def ch32 (x y z : Nat) : Nat := (x &&& y) ^^^ ((x ^^^ 4294967295) &&& z)

def maj32 (x y z : Nat) : Nat := (x &&& y) ^^^ (x &&& z) ^^^ (y &&& z)

def bsig0 (x : Nat) : Nat := rotr32 2 x ^^^ rotr32 13 x ^^^ rotr32 22 x

def bsig1 (x : Nat) : Nat := rotr32 6 x ^^^ rotr32 11 x ^^^ rotr32 25 x

def ssig0 (x : Nat) : Nat := rotr32 7 x ^^^ rotr32 18 x ^^^ (x >>> 3)

def ssig1 (x : Nat) : Nat := rotr32 17 x ^^^ rotr32 19 x ^^^ (x >>> 10)

def sha256K : List Nat :=
  [1116352408, 1899447441, 3049323471, 3921009573, 961987163,
   1508970993, 2453635748, 2870763221, 3624381080, 310598401,
   607225278, 1426881987, 1925078388, 2162078206, 2614888103,
   3248222580, 3835390401, 4022224774, 264347078, 604807628,
   770255983, 1249150122, 1555081692, 1996064986, 2554220882,
   2821834349, 2952996808, 3210313671, 3336571891, 3584528711,
   113926993, 338241895, 666307205, 773529912, 1294757372,
   1396182291, 1695183700, 1986661051, 2177026350, 2456956037,
   2730485921, 2820302411, 3259730800, 3345764771, 3516065817,
   3600352804, 4094571909, 275423344, 430227734, 506948616,
   659060556, 883997877, 958139571, 1322822218, 1537002063,
   1747873779, 1955562222, 2024104815, 2227730452, 2361852424,
   2428436474, 2756734187, 3204031479, 3329325298]

def sha256H0 : List Nat :=
  [1779033703, 3144134277, 1013904242, 2773480762, 1359893119,
   2600822924, 528734635, 1541459225]

/-- Big-endian packing of a byte stream into 32-bit words. -/
def toWords : List Nat → List Nat
  | b0 :: b1 :: b2 :: b3 :: rest =>
    ((b0 <<< 24) ||| (b1 <<< 16) ||| (b2 <<< 8) ||| b3) :: toWords rest
  | _ => []

/-- Big-endian 8-byte encoding of the bit length. -/
def be64 (n : Nat) : List Nat :=
  [w8 (n >>> 56), w8 (n >>> 48), w8 (n >>> 40), w8 (n >>> 32),
   w8 (n >>> 24), w8 (n >>> 16), w8 (n >>> 8), w8 n]

/-- FIPS 180-4 padding: `0x80`, zeros, then the 64-bit message bit length,
to a multiple of 64 bytes. -/
def padBytes (m : List Nat) : List Nat :=
  m ++ 0x80 :: List.replicate ((64 - (m.length + 9) % 64) % 64) 0
    ++ be64 (8 * m.length)

/-- Extends the 16 message words by `n` further schedule words. -/
def extendW (w : List Nat) : Nat → List Nat
  | 0 => w
  | n + 1 =>
    extendW
      (w ++ [w32 (ssig1 (w.getD (w.length - 2) 0) + w.getD (w.length - 7) 0 +
                  ssig0 (w.getD (w.length - 15) 0) + w.getD (w.length - 16) 0)]) n

/-- One compression round on the state `[a, b, c, d, e, f, g, h]`. -/
def sha256Round (st : List Nat) (kw : Nat × Nat) : List Nat :=
  match st with
  | [a, b, c, d, e, f, g, h] =>
    let t1 := w32 (h + bsig1 e + ch32 e f g + kw.1 + kw.2)
    let t2 := w32 (bsig0 a + maj32 a b c)
    [w32 (t1 + t2), a, b, c, w32 (d + t1), e, f, g]
  | st => st

/-- Compression of one 64-byte block into the running hash state. -/
def sha256Compress (hs block : List Nat) : List Nat :=
  let w := extendW (toWords block) 48
  let st := (sha256K.zip w).foldl sha256Round hs
  (hs.zip st).map (fun p => w32 (p.1 + p.2))

/-- Folds the padded stream block by block; the fuel bounds the number of
blocks and is structurally decreasing. -/
def sha256Blocks : Nat → List Nat → List Nat → List Nat
  | 0, hs, _ => hs
  | _ + 1, hs, [] => hs
  | fuel + 1, hs, rest => sha256Blocks fuel (sha256Compress hs (rest.take 64)) (rest.drop 64)

/-- SHA-256 of a byte stream, as a 32-byte digest. -/
def sha256 (m : List Nat) : List Nat :=
  let padded := padBytes m
  (sha256Blocks padded.length sha256H0 padded).flatMap
    (fun h => [w8 (h >>> 24), w8 (h >>> 16), w8 (h >>> 8), w8 h])

/-- HMAC-SHA256 (RFC 2104) with the 64-byte block size, as in Go's
`hmac.New(sha256.New, key)`. -/
def hmacSha256 (key msg : List Nat) : List Nat :=
  let k0 := if 64 < key.length then sha256 key else key
  let k := k0 ++ List.replicate (64 - k0.length) 0
  sha256 ((k.map (fun b => b ^^^ 0x5c)) ++
          sha256 ((k.map (fun b => b ^^^ 0x36)) ++ msg))

def hexDigit (n : Nat) : Char := (("0123456789abcdef").toList).getD n 'x'

/-- `hex.EncodeToString` (lowercase). -/
def hexEncode (bs : List Nat) : List Char :=
  bs.flatMap (fun b => [hexDigit (b / 16), hexDigit (b % 16)])

/-- UTF-8 bytes of a string; every string involved is ASCII, where UTF-8 is
the identity on code points. -/
def strBytes (s : List Char) : List Nat := s.map Char.toNat

/-- Go's `fmt.Sprintf("%d", n)` on the (positive) expiry. -/
def natDec (n : Nat) : List Char := (Nat.repr n).toList

/-- The credential from the caller's context (`realtime.Auth`). -/
structure Auth where
  key : List Char
  secret : List Char

/-- `Client.signture` (source lines 489-510) up to the connection write:
expiry is `time.Now().UTC().Add(24 * 60 * time.Minute).Unix()`, the
signature is the hex HMAC-SHA256 of `"GET/realtime" + expiry` keyed by the
secret, and the arguments are appended in the order key, expiry,
signature; `now` is the current wall clock in epoch seconds. -/
def signture (a : Auth) (now : Nat) : Request :=
  let expire := now + 24 * 60 * 60
  let payload := ("GET/realtime").toList ++ natDec expire
  let sign := hexEncode (hmacSha256 (strBytes a.secret) (strBytes payload))
  { op := ("authKeyExpires").toList,
    args := [Arg.str a.key, Arg.num expire, Arg.str sign],
    id := 1 }

/-- Stated from the spec's words, for comparison with `signture`: expiry is
the current time plus 24 hours in epoch seconds, the signature is the
hex-encoded HMAC-SHA256 of the string `"GET/realtime"` concatenated with
the expiry, keyed by the secret, and the arguments are ordered
key identifier, expiry, signature. -/
def specAuthRequest (key secret : List Char) (now : Nat) : Request :=
  let expiry := now + 86400
  let signature :=
    hexEncode (hmacSha256 (strBytes secret)
      (strBytes (("GET/realtime").toList ++ natDec expiry)))
  { op := ("authKeyExpires").toList,
    args := [Arg.str key, Arg.num expiry, Arg.str signature],
    id := 1 }

/-! ## The session control flow of `Connect`

`Connect` is embedded as a function of an environment recording the
outcome of each I/O interaction: whether the websocket dial of `New`
succeeded, the credential found in the context, the current time, whether
the authentication and subscribe writes succeeded, and how the read loop
ended. The result is the ordered list of teardown-relevant actions
(connection writes, deferred unsubscribe, deferred close) together with
the value `Connect` returns; dereferencing a `nil` `*Client` is the
`panics` outcome. The `ping` goroutine only writes keep-alives and never
affects control flow or teardown, so it is not part of the action list;
per-frame processing is `processFrame` above. -/

/-- How the read loop of `Connect` ends: the `select` observed the
caller's cancellation, or `ReadMessage` failed with the given error text
(a read deadline expiry is such an error). -/
inductive LoopEnd where
  | cancel
  | readErr (msg : List Char)

/-- The I/O environment of one `Connect` invocation. -/
structure Env where
  dialOk : Bool
  auth : Option Auth
  now : Nat
  authWriteOk : Bool
  subWriteOk : Bool
  ending : LoopEnd

/-- Teardown-relevant actions of a session, in execution order. -/
inductive Action where
  | authWrite (r : Request)
  | subWrite (rs : List Request)
  | unsubWrite (rs : List Request)
  | close

/-- What `Connect` does at its exit: return the given `error` value
(`none` is Go's `nil`), or crash with a runtime panic. -/
inductive ConnectResult where
  | panics
  | ret (err : Option (List Char))
deriving DecidableEq

/-- The error value `errgroup.Wait` delivers: `ctx.Err()` is
`context.Canceled` on the cancellation path, and a read failure is wrapped
as `fmt.Errorf("can't receive error: %v", err)`. -/
def loopErrText : LoopEnd → List Char
  | .cancel => ("context canceled").toList
  | .readErr m => ("can't receive error: ").toList ++ m

/-- The tail of `Connect` (lines 412-422): the non-nil `eg.Wait()` error
is returned, wrapped, only when its text contains
`context.Canceled.Error()`; every other loop error falls through to
`return nil`. -/
def connectTail (ending : LoopEnd) : Option (List Char) :=
  if seqIn (("context canceled").toList) (loopErrText ending) then
    some ((("context stop outside ").toList) ++ loopErrText ending)
  else none

/-- `Connect` from the subscribe call on: a failed subscribe write returns
the wrapped error with only the deferred `Close` pending; on success the
deferred `unsubscribe` (registered only now) and `Close` run, in this
order, when the read loop ends — on either kind of `LoopEnd`. -/
def connectAfterDial (channels : List (List Char))
    (symbols : Option (List (List Char))) (e : Env) :
    List Action × ConnectResult :=
  let reqs := subscribeRequests channels symbols
  if e.subWriteOk then
    ([Action.subWrite reqs, Action.unsubWrite (unsubRequests reqs), Action.close],
     .ret (connectTail e.ending))
  else
    ([Action.subWrite reqs, Action.close],
     .ret (some ("disconnect write failed").toList))

/-- `Connect` (lines 212-423). When the dial inside `New` fails, `New`
returns a `nil` `*Client` which `Connect` dereferences at `p.Auth`,
panicking before any authentication, subscription or read. With a live
client, a present credential is signed and written first; an
authentication write failure returns before subscribing, with only the
deferred `Close` pending. -/
def connectRun (channels : List (List Char))
    (symbols : Option (List (List Char))) (e : Env) :
    List Action × ConnectResult :=
  if e.dialOk then
    match e.auth with
    | none => connectAfterDial channels symbols e
    | some a =>
      if e.authWriteOk then
        let rest := connectAfterDial channels symbols e
        (Action.authWrite (signture a e.now) :: rest.1, rest.2)
      else
        ([Action.authWrite (signture a e.now), Action.close],
         .ret (some ("auth write failed").toList))
  else ([], .panics)

/-- Selector for unsubscribe-routine invocations in an action list. -/
def isUnsub : Action → Bool
  | .unsubWrite _ => true
  | _ => false

/-! ## Concrete inputs used by witnesses and counterexamples -/

/-- Arity test used to state the amended row claim: is the row a 2-element
JSON array? -/
def row2 : Json → Bool
  | .arr [_, _] => true
  | _ => false

/-- The spec's well-formed example rows `[[7024.5,200430],[7024.5,200430]]`
(7024.5 is exactly the reduced rational 14049/2). -/
def exGoodRows : List Json :=
  [.arr [.num (Rat.mk' 14049 2), .num 200430], .arr [.num (Rat.mk' 14049 2), .num 200430]]

/-- The same first row followed by a malformed 3-element row. -/
def exBadRows : List Json :=
  [.arr [.num (Rat.mk' 14049 2), .num 200430], .arr [.num 1, .num 2, .num 3]]

/-- A malformed 3-element row on its own. -/
def exRow3 : Json := .arr [.num 1, .num 2, .num 3]

/-- A well-formed row on its own. -/
def exRowOk : Json := .arr [.num (Rat.mk' 14049 2), .num 200430]

/-- A frame whose topic matches no known table name. -/
def frameX : Frame :=
  { table := some ("pong").toList, action := none,
    data := some (.arr []), raw := ("rawframe").toList }

/-- A JSON object carrying both book sides, for the decoder witnesses. -/
def obInput : Json :=
  .obj [(asksKey, .arr [.arr [.num 3, .num 4]]),
        (bidsKey, .arr [.arr [.num 1, .num 2]])]

/-- An object whose `bids` key is present but not an array. -/
def obBadInput : List (List Char × Json) :=
  [(asksKey, .arr []), (bidsKey, .num 0)]

/-- A session whose read loop died with an ordinary read error (e.g. the
300s read deadline expired). -/
def c1Env : Env :=
  { dialOk := true, auth := none, now := 0, authWriteOk := true,
    subWriteOk := true, ending := .readErr ("i/o timeout").toList }

/-- A session torn down by caller cancellation. -/
def cancelEnv : Env :=
  { dialOk := true, auth := none, now := 0, authWriteOk := true,
    subWriteOk := true, ending := .cancel }

/-- A session torn down by a read error. -/
def readErrEnv : Env :=
  { dialOk := true, auth := none, now := 0, authWriteOk := true,
    subWriteOk := true, ending := .readErr ("read tcp: i/o timeout").toList }

/-- An invocation whose websocket dial failed. -/
def noDialEnv : Env :=
  { dialOk := false, auth := none, now := 0, authWriteOk := true,
    subWriteOk := true, ending := .cancel }

/-! ## Helper lemmas -/

/-- A `bookname` iteration whose key is absent or not an array fails the
whole decode. -/
theorem obLoop_not_arr (k : List Char) (ks : List (List Char))
    (fields : List (List Char × Json)) (acc : OrderBook)
    (h : isArrAt fields k = false) :
    obLoop (k :: ks) fields acc = .error dataHasNotType := by
  unfold isArrAt at h
  cases e : lookupField fields k with
  | none => simp [obLoop, e]
  | some v =>
    cases v with
    | null => simp [obLoop, e]
    | bool b => simp [obLoop, e]
    | num q => simp [obLoop, e]
    | str s => simp [obLoop, e]
    | obj f => simp [obLoop, e]
    | arr body => simp [e] at h

/-- A `bookname` iteration whose key holds an array stores the decoded
rows in `Bids` whenever the key is not the literal `"ask"`. -/
theorem obLoop_step (k : List Char) (ks : List (List Char))
    (fields : List (List Char × Json)) (acc : OrderBook) (body : List Json)
    (e : lookupField fields k = some (.arr body)) (hk : ¬k = askLit) :
    obLoop (k :: ks) fields acc =
      obLoop ks fields { acc with bids := decodeRows body } := by
  simp [obLoop, e, hk]

/-- Extracting the array behind a successful `isArrAt` test. -/
theorem arr_of_isArrAt (fields : List (List Char × Json)) (k : List Char)
    (h : isArrAt fields k = true) :
    ∃ body, lookupField fields k = some (.arr body) := by
  unfold isArrAt at h
  cases e : lookupField fields k with
  | none => simp [e] at h
  | some v =>
    cases v with
    | arr body => exact ⟨body, rfl⟩
    | null => simp [e] at h
    | bool b => simp [e] at h
    | num q => simp [e] at h
    | str s => simp [e] at h
    | obj f => simp [e] at h

/-- A row that is not a 2-element array is `continue`d over and leaves the
zero `Book`. -/
theorem decodeRow_not2 (m : Json) (h : row2 m = false) :
    decodeRow m = { price := 0, size := 0 } := by
  cases m with
  | arr l =>
    rcases l with _ | ⟨a, _ | ⟨b, _ | ⟨c, tl⟩⟩⟩
    · rfl
    · rfl
    · simp [row2] at h
    · rfl
  | null => rfl
  | bool b => rfl
  | num q => rfl
  | str s => rfl
  | obj f => rfl

/-- When no table entry's pattern starts the name, the ordered first-match
scan returns `none` (the `default` branch). -/
theorem classify_none (tbl : List (List Char × Types)) (name : List Char)
    (h : tbl.all (fun pt => !leadMatch pt.1 name) = true) :
    classify tbl name = none := by
  induction tbl with
  | nil => rfl
  | cons pt rest ih =>
    rw [List.all_cons, Bool.and_eq_true] at h
    obtain ⟨h1, h2⟩ := h
    rw [Bool.not_eq_true'] at h1
    cases pt with
    | mk p t => simp only [classify, h1, Bool.false_eq_true, if_false]; exact ih h2

/-- The substring after the first occurrence of `c`, when `c` first occurs
at the given split point. -/
theorem afterFirst_append (c : Char) (pre s : List Char) (h : c ∉ pre) :
    afterFirst c (pre ++ c :: s) = some s := by
  induction pre with
  | nil => simp [afterFirst]
  | cons x xs ih =>
    have hx : ¬x = c := by
      intro he
      exact h (he ▸ List.mem_cons_self x xs)
    simp only [List.cons_append, afterFirst, hx, if_false]
    exact ih (fun hm => h (List.mem_cons_of_mem x hm))

/-- Mapping a two-argument builder over `List.product` is the
channel-major, symbol-minor double loop of the source. -/
theorem map_product {α β γ : Type} (F : α → β → γ) (l1 : List α) (l2 : List β) :
    (List.product l1 l2).map (fun p => F p.1 p.2) =
      l1.flatMap (fun a => l2.map (fun b => F a b)) := by
  simp only [List.product]
  induction l1 with
  | nil => rfl
  | cons a as ih =>
    simp only [List.flatMap_cons, List.map_append, List.map_map, ih]
    rfl

/-! ## Claims -/

/-- C3: on every JSON input on which `OrderBook.UnmarshalJSON` succeeds,
the rows decoded under the `"asks"` key are never stored in `Asks` — the
loop compares each key with the literal `"ask"`, which neither `"asks"`
nor `"bids"` equals — so both iterations assign `Bids`, the final `Asks`
is empty, and the final `Bids` holds the rows decoded from the `"bids"`
key (bids always win). -/
theorem c3_asks_never_stored (j : Json) (ob : OrderBook)
    (h : unmarshalOrderBook j = .ok ob) :
    ob.asks = [] ∧
      ∃ fields a b, j = .obj fields ∧
        lookupField fields asksKey = some (.arr a) ∧
        lookupField fields bidsKey = some (.arr b) ∧
        ob.bids = decodeRows b := by
  cases j with
  | obj fields =>
    rw [show unmarshalOrderBook (.obj fields) =
          obLoop [asksKey, bidsKey] fields { asks := [], bids := [] } from rfl] at h
    cases ea : lookupField fields asksKey with
    | none =>
      rw [obLoop_not_arr asksKey [bidsKey] fields _ (by simp [isArrAt, ea])] at h
      exact absurd h (by simp)
    | some v =>
      cases v with
      | arr a =>
        rw [obLoop_step asksKey [bidsKey] fields _ a ea (by decide)] at h
        cases eb : lookupField fields bidsKey with
        | none =>
          rw [obLoop_not_arr bidsKey [] fields _ (by simp [isArrAt, eb])] at h
          exact absurd h (by simp)
        | some w =>
          cases w with
          | arr b =>
            rw [obLoop_step bidsKey [] fields _ b eb (by decide)] at h
            simp only [obLoop, Except.ok.injEq] at h
            refine ⟨?_, fields, a, b, rfl, ea, eb, ?_⟩
            · rw [← h]
            · rw [← h]
          | null =>
            rw [obLoop_not_arr bidsKey [] fields _ (by simp [isArrAt, eb])] at h
            exact absurd h (by simp)
          | bool x =>
            rw [obLoop_not_arr bidsKey [] fields _ (by simp [isArrAt, eb])] at h
            exact absurd h (by simp)
          | num x =>
            rw [obLoop_not_arr bidsKey [] fields _ (by simp [isArrAt, eb])] at h
            exact absurd h (by simp)
          | str x =>
            rw [obLoop_not_arr bidsKey [] fields _ (by simp [isArrAt, eb])] at h
            exact absurd h (by simp)
          | obj x =>
            rw [obLoop_not_arr bidsKey [] fields _ (by simp [isArrAt, eb])] at h
            exact absurd h (by simp)
      | null =>
        rw [obLoop_not_arr asksKey [bidsKey] fields _ (by simp [isArrAt, ea])] at h
        exact absurd h (by simp)
      | bool x =>
        rw [obLoop_not_arr asksKey [bidsKey] fields _ (by simp [isArrAt, ea])] at h
        exact absurd h (by simp)
      | num x =>
        rw [obLoop_not_arr asksKey [bidsKey] fields _ (by simp [isArrAt, ea])] at h
        exact absurd h (by simp)
      | str x =>
        rw [obLoop_not_arr asksKey [bidsKey] fields _ (by simp [isArrAt, ea])] at h
        exact absurd h (by simp)
      | obj x =>
        rw [obLoop_not_arr asksKey [bidsKey] fields _ (by simp [isArrAt, ea])] at h
        exact absurd h (by simp)
  | null => exact absurd h (by simp [unmarshalOrderBook])
  | bool b => exact absurd h (by simp [unmarshalOrderBook])
  | num q => exact absurd h (by simp [unmarshalOrderBook])
  | str s => exact absurd h (by simp [unmarshalOrderBook])
  | arr xs => exact absurd h (by simp [unmarshalOrderBook])

/-- C3 witness: a concrete object with one row on each side decodes with
empty `Asks` and `Bids` taken from the `"bids"` key. -/
theorem c3_witness :
    unmarshalOrderBook obInput =
      .ok { asks := [], bids := [{ price := 1, size := 2 }] } ∧
    ({ asks := [], bids := [{ price := 1, size := 2 }] } : OrderBook).asks = [] :=
  ⟨by rfl, (c3_asks_never_stored obInput _ (by rfl)).1⟩

/-- C4 counterexample: the claim says a malformed row (here the 3-element
`[1,2,3]`) is skipped and contributes no row, so
`[[7024.5,200430],[1,2,3]]` would have to decode to the single row
`[\x7b7024.5, 200430\x7d]`; in fact the pre-allocated `make([]Book, len(body))`
slot survives the `continue` and the result is that row followed by the
zero row `\x7b0, 0\x7d`. -/
theorem c4_counterexample :
    decodeRows exBadRows =
      [{ price := Rat.mk' 14049 2, size := 200430 }, { price := 0, size := 0 }] ∧
    decodeRows exBadRows ≠ [{ price := Rat.mk' 14049 2, size := 200430 }] :=
  ⟨by decide, by decide⟩

/-- C4 amended: the spec's well-formed example decodes to exactly the two
stated rows; decoding never fails and always yields one output row per
input row (so the row count is preserved); and a row that is not a
2-element array contributes the zero row `\x7b0, 0\x7d` at its position while
the surrounding rows decode normally (a 2-element row with a non-numeric
element is not skipped either: the failed `float64` assertions coerce the
bad elements to `0`). -/
theorem c4_rows_zero_filled :
    decodeRows exGoodRows =
      [{ price := Rat.mk' 14049 2, size := 200430 },
       { price := Rat.mk' 14049 2, size := 200430 }] ∧
    (∀ body : List Json, (decodeRows body).length = body.length) ∧
    (∀ p q : List Json, ∀ m : Json, row2 m = false →
      decodeRows (p ++ m :: q) =
        decodeRows p ++ { price := 0, size := 0 } :: decodeRows q) := by
  refine ⟨by decide, fun body => by simp [decodeRows], fun p q m hm => ?_⟩
  simp [decodeRows, decodeRow_not2 m hm]

/-- C4 witness: the amended row-locality statement applied to the
concrete malformed row `[1,2,3]` between two well-formed rows. -/
theorem c4_witness :
    row2 exRow3 = false ∧
    decodeRows ([exRowOk] ++ exRow3 :: [exRowOk]) =
      decodeRows [exRowOk] ++ { price := 0, size := 0 } :: decodeRows [exRowOk] :=
  ⟨by rfl, c4_rows_zero_filled.2.2 [exRowOk] [exRowOk] exRow3 (by rfl)⟩

/-- C10: when the top-level `"asks"` or `"bids"` key is absent or not a
JSON array, `OrderBook.UnmarshalJSON` fails the whole message with the
`"data has not type"` error, even though malformed rows inside a present
array are tolerated. -/
theorem c10_missing_key_fails (fields : List (List Char × Json))
    (h : isArrAt fields asksKey = false ∨ isArrAt fields bidsKey = false) :
    unmarshalOrderBook (.obj fields) = .error dataHasNotType := by
  rw [show unmarshalOrderBook (.obj fields) =
        obLoop [asksKey, bidsKey] fields { asks := [], bids := [] } from rfl]
  rcases h with h | h
  · exact obLoop_not_arr asksKey [bidsKey] fields _ h
  · cases ha : isArrAt fields asksKey with
    | false => exact obLoop_not_arr asksKey [bidsKey] fields _ ha
    | true =>
      obtain ⟨body, e⟩ := arr_of_isArrAt fields asksKey ha
      rw [obLoop_step asksKey [bidsKey] fields _ body e (by decide)]
      exact obLoop_not_arr bidsKey [] fields _ h

/-- C10 witness: an object whose `"bids"` key holds a number fails the
decode (the `"asks"` key holds an array, so the failure is the `"bids"`
side). -/
theorem c10_witness :
    (isArrAt obBadInput asksKey = false ∨ isArrAt obBadInput bidsKey = false) ∧
    unmarshalOrderBook (.obj obBadInput) = .error dataHasNotType :=
  ⟨Or.inr (by rfl), c10_missing_key_fails obBadInput (Or.inr (by rfl))⟩

/-- C5 counterexample: the topic `"trade:AETHUSD"` has the form
`<channel>:<symbol>` with symbol `"AETHUSD"` (the substring after the
first colon), yet the hardcoded `ETHUSD` suffix match runs first and the
derived product code is `"ETHUSD"`, not the substring after the colon. -/
theorem c5_counterexample :
    afterFirst ':' (("trade:AETHUSD").toList) = some (("AETHUSD").toList) ∧
    productCode (("trade:AETHUSD").toList) = ("ETHUSD").toList ∧
    ("ETHUSD").toList ≠ ("AETHUSD").toList :=
  ⟨by decide, by decide, by decide⟩

/-- C5 amended: for a topic `<channel>:<symbol>` whose channel part
contains no colon, the derived product code is the substring after the
first colon unless the whole topic ends in one of the hardcoded suffixes
`XBTUSD`, `ETHUSD`, `XRPUSD`, in which case it is that suffix (the two
rules coincide exactly when the symbol itself is one of the three
hardcoded codes). -/
theorem c5_symbol_after_colon (pre sym : List Char) (hp : ':' ∉ pre) :
    productCode (pre ++ ':' :: sym) =
      (if tailMatch xbtusdLit (pre ++ ':' :: sym) then xbtusdLit
       else if tailMatch ethusdLit (pre ++ ':' :: sym) then ethusdLit
       else if tailMatch xrpusdLit (pre ++ ':' :: sym) then xrpusdLit
       else sym) := by
  unfold productCode
  split_ifs
  · rfl
  · rfl
  · rfl
  · rw [afterFirst_append ':' pre sym hp]

/-- C5 witness: the amended statement at the well-formed topic
`"trade:XBTUSD"`, where the suffix rule and the after-colon rule agree. -/
theorem c5_witness :
    (':' ∉ ("trade").toList) ∧
    productCode (("trade").toList ++ ':' :: ("XBTUSD").toList) =
      (if tailMatch xbtusdLit (("trade").toList ++ ':' :: ("XBTUSD").toList) then xbtusdLit
       else if tailMatch ethusdLit (("trade").toList ++ ':' :: ("XBTUSD").toList) then ethusdLit
       else if tailMatch xrpusdLit (("trade").toList ++ ':' :: ("XBTUSD").toList) then xrpusdLit
       else ("XBTUSD").toList) :=
  ⟨by decide, c5_symbol_after_colon (("trade").toList) (("XBTUSD").toList) (by decide)⟩

/-- C6 counterexample: with channels `["order"]` and an empty but non-nil
symbol slice, the source's `symbols != nil` test takes the cross-product
branch, producing one request whose argument list is empty — not the bare
channel names the claim requires for every empty symbol list. -/
theorem c6_counterexample :
    subscribeRequests [("order").toList] (some []) =
      [{ op := ("subscribe").toList, args := [], id := 0 }] ∧
    ([] : List Arg) ≠ [Arg.str (("order").toList)] :=
  ⟨rfl, by decide⟩

/-- C6 amended: exactly one subscribe request is built in every case; for
any non-nil symbol slice (including the empty one) its argument list is
the full channel-major, symbol-minor cross product `channel:symbol`, and
the bare channel names are used exactly when the symbol slice is nil;
the spec's two concrete examples hold with a nil symbol slice in the
second. -/
theorem c6_subscribe_requests :
    (∀ ch sy : List (List Char), subscribeRequests ch (some sy) =
      [{ op := ("subscribe").toList,
         args := (List.product ch sy).map (fun p => Arg.str (colonJoin p.1 p.2)),
         id := 0 }]) ∧
    (∀ ch : List (List Char), subscribeRequests ch none =
      [{ op := ("subscribe").toList, args := ch.map Arg.str, id := 0 }]) ∧
    subscribeRequests [("trade").toList, ("quote").toList]
        (some [("XBTUSD").toList, ("ETHUSD").toList]) =
      [{ op := ("subscribe").toList,
         args := [Arg.str (("trade:XBTUSD").toList), Arg.str (("trade:ETHUSD").toList),
                  Arg.str (("quote:XBTUSD").toList), Arg.str (("quote:ETHUSD").toList)],
         id := 0 }] ∧
    subscribeRequests [("order").toList] none =
      [{ op := ("subscribe").toList, args := [Arg.str (("order").toList)], id := 0 }] := by
  refine ⟨fun ch sy => ?_, fun ch => rfl, by decide, rfl⟩
  rw [subscribeRequests, ← map_product (fun c s => Arg.str (colonJoin c s)) ch sy]

set_option maxRecDepth 200000

/-- Sanity check of the embedded SHA-256 against the standard `"abc"`
digest (FIPS 180-4 test vector). -/
theorem sha256_abc_vector :
    hexEncode (sha256 (strBytes ("abc").toList)) =
      ("ba7816bf8f01cfea414140de5dae2223b00361a396177a9cb410ff61f20015ad").toList := by
  decide

/-- Sanity check of the embedded HMAC-SHA256 against RFC 4231 test case 2
(key `"Jefe"`). -/
theorem hmacSha256_rfc4231_vector :
    hexEncode (hmacSha256 (strBytes ("Jefe").toList)
        (strBytes ("what do ya want for nothing?").toList)) =
      ("5bdcc146bf60754e6a042426089575c75a003f089d2739839dec58b964ec3843").toList := by
  decide

/-- C7: for every credential and current time, the authentication request
built by `signture` has expiry equal to the current time plus 24 hours in
epoch seconds, signature equal to the hex-encoded HMAC-SHA256 of
`"GET/realtime"` concatenated with the expiry keyed by the secret, and
arguments ordered key identifier, expiry, signature — i.e. it coincides
with the request stated from the spec's words (`specAuthRequest`). -/
theorem c7_auth_request (key secret : List Char) (now : Nat) :
    signture { key := key, secret := secret } now = specAuthRequest key secret now :=
  rfl

/-- C8: an inbound frame with both a `table` and a `data` field whose
topic name starts with none of the known table-name patterns is not
dropped: it produces an event with the `Undefined` discriminant carrying
the raw frame text as its error detail. -/
theorem c8_unknown_topic (f : Frame) (name : List Char) (d : Json)
    (ht : f.table = some name) (hd : f.data = some d)
    (hm : knownTable.all (fun pt => !leadMatch pt.1 name) = true) :
    processFrame f =
      some { types := .Undefined, productCode := productCode name,
             action := f.action.getD [], results := some f.raw } := by
  have hc : classifyName name = none := classify_none knownTable name hm
  simp [processFrame, ht, hd, classifyName] at hc ⊢
  simp [hc]

/-- C8 witness: the frame with the unknown table name `"pong"` yields the
`Undefined` event carrying its raw text. -/
theorem c8_witness :
    (frameX.table = some (("pong").toList) ∧
     knownTable.all (fun pt => !leadMatch pt.1 (("pong").toList)) = true) ∧
    processFrame frameX =
      some { types := .Undefined, productCode := ("undefined").toList,
             action := [], results := some (("rawframe").toList) } :=
  ⟨⟨rfl, by decide⟩, c8_unknown_topic frameX (("pong").toList) (.arr []) rfl rfl (by decide)⟩

/-- C9: in every session that reaches the streaming state (dial ok,
authentication — when present — written, subscribe requests written), the
deferred unsubscribe routine appears exactly once among the session's
teardown actions, for any way the read loop ends (caller cancellation or
read error alike), and it re-sends exactly the subscribe requests with
the operation flipped to `"unsubscribe"` and the argument lists
unchanged. -/
theorem c9_unsub_exactly_once (ch : List (List Char))
    (sy : Option (List (List Char))) (e : Env)
    (h1 : e.dialOk = true) (h2 : e.auth = none ∨ e.authWriteOk = true)
    (h3 : e.subWriteOk = true) :
    (connectRun ch sy e).1.filter isUnsub =
      [Action.unsubWrite (unsubRequests (subscribeRequests ch sy))] ∧
    (unsubRequests (subscribeRequests ch sy)).map (fun r => r.args) =
      (subscribeRequests ch sy).map (fun r => r.args) ∧
    ∀ r, r ∈ unsubRequests (subscribeRequests ch sy) → r.op = ("unsubscribe").toList := by
  refine ⟨?_, by simp [unsubRequests], by simp [unsubRequests]⟩
  cases he : e.auth with
  | none => simp [connectRun, connectAfterDial, h1, h3, he, isUnsub, List.filter]
  | some a =>
    rcases h2 with h2 | h2
    · rw [he] at h2; exact absurd h2 (by simp)
    · simp [connectRun, connectAfterDial, h1, h2, h3, he, isUnsub, List.filter]

/-- C9 witness: the exactly-once unsubscribe property applied to one
session torn down by cancellation and one torn down by a read error. -/
theorem c9_witness :
    (cancelEnv.subWriteOk = true ∧
     (connectRun [("trade").toList] none cancelEnv).1.filter isUnsub =
       [Action.unsubWrite (unsubRequests (subscribeRequests [("trade").toList] none))]) ∧
    (readErrEnv.subWriteOk = true ∧
     (connectRun [("trade").toList] none readErrEnv).1.filter isUnsub =
       [Action.unsubWrite (unsubRequests (subscribeRequests [("trade").toList] none))]) :=
  ⟨⟨rfl, (c9_unsub_exactly_once [("trade").toList] none cancelEnv rfl (Or.inl rfl) rfl).1⟩,
   ⟨rfl, (c9_unsub_exactly_once [("trade").toList] none readErrEnv rfl (Or.inl rfl) rfl).1⟩⟩

/-- C1 counterexample: a session that reached streaming and whose read
path failed with the ordinary read error `"i/o timeout"` (the shape a
read-deadline expiry takes). The claim says `Connect` returns this error
as a non-nil terminal failure; in fact the error text does not contain
`"context canceled"`, so the tail of `Connect` falls through and returns
`nil`. -/
theorem c1_counterexample :
    c1Env.ending = LoopEnd.readErr (("i/o timeout").toList) ∧
    (connectRun [("trade").toList] none c1Env).2 = ConnectResult.ret none :=
  ⟨rfl, rfl⟩

/-- C1 amended: for every session that reaches the streaming state, the
session still tears down on any read-loop exit, but `Connect` returns a
non-nil error only when the loop error's text contains
`"context canceled"` (in particular on the cancellation path, where the
wrapped `"context stop outside ..."` error is returned); on any other
read error — including a read-deadline expiry — `Connect` logs the error
and returns `nil`. -/
theorem c1_read_error_swallowed (ch : List (List Char))
    (sy : Option (List (List Char))) (e : Env)
    (h1 : e.dialOk = true) (h2 : e.auth = none ∨ e.authWriteOk = true)
    (h3 : e.subWriteOk = true) :
    (connectRun ch sy e).2 =
      .ret (if seqIn (("context canceled").toList) (loopErrText e.ending) then
              some ((("context stop outside ").toList) ++ loopErrText e.ending)
            else none) := by
  cases he : e.auth with
  | none => simp [connectRun, connectAfterDial, connectTail, h1, h3, he]
  | some a =>
    rcases h2 with h2 | h2
    · rw [he] at h2; exact absurd h2 (by simp)
    · simp [connectRun, connectAfterDial, connectTail, h1, h2, h3, he]

/-- C1 witness: the amended return rule applied to a cancelled session,
where the wrapped non-nil cancellation error is returned. -/
theorem c1_witness :
    cancelEnv.dialOk = true ∧
    (connectRun [("trade").toList] none cancelEnv).2 =
      .ret (if seqIn (("context canceled").toList) (loopErrText cancelEnv.ending) then
              some ((("context stop outside ").toList) ++ loopErrText cancelEnv.ending)
            else none) :=
  ⟨rfl, c1_read_error_swallowed [("trade").toList] none cancelEnv rfl (Or.inl rfl) rfl⟩

/-- C2: when establishing the underlying websocket connection fails, `New`
returns a `nil` `*Client` instead of an error, and `Connect` dereferences
it at `p.Auth` — the invocation panics with a nil-pointer dereference
before any authentication, subscription or read, rather than returning an
error as the claim states. -/
theorem c2_dial_failure_panics (ch : List (List Char))
    (sy : Option (List (List Char))) (e : Env) (h : e.dialOk = false) :
    connectRun ch sy e = ([], .panics) := by
  simp [connectRun, h]

/-- C2 witness: a concrete invocation whose dial failed performs no
actions and panics. -/
theorem c2_witness :
    noDialEnv.dialOk = false ∧
    connectRun [("trade").toList] none noDialEnv = ([], .panics) :=
  ⟨rfl, c2_dial_failure_panics [("trade").toList] none noDialEnv rfl⟩

end GoBitmex
